import Mathlib

/-!
Shallow embedding of the counseling topic-routing core of Mind-Chat:
`app/counseling/topic_router.py`, `app/counseling/retriever.py` and the
parts of `app/models.py` they consume.

Conventions of the embedding:
* Python `float` is modelled as `ℚ` (the routing arithmetic is exact
  rational arithmetic on the values involved).
* Python `int` is modelled as `ℤ`.
* Python `dict[str, float]` is modelled as an association list
  `List (String × ℚ)` with Python's insertion-order semantics:
  assignment to an existing key keeps its position, assignment to a new
  key appends at the end.
* Python `str | None` is modelled as `Option String`; Python truthiness
  of such a value (`if s:`) is `pyTruthy` (false for `None` and `""`).
* the effectful dependencies (the sentence-transformer embedder and the
  Chroma collection) are modelled as oracle inputs (`Except`-valued
  outcomes) together with explicit call/log traces, so that "no
  embedding or index call is made" and "logged once" are statable.
* the topic catalog `SYSTEM_PROMPT_EXAMPLES` (module
  `app/counseling/prompt_catalog.py`, not in the analysed tree) is a
  fixed read-only mapping from topic id to prompt-fragment string; it is
  passed as a parameter `catalog : String → String`, the empty string
  standing for a missing fragment exactly as `dict.get(topic, "")` does.
-/

/-- Python dict `dict[str, float]` as an insertion-ordered association list. -/
abbrev ScoreMap := List (String × ℚ)

/-- Truthiness of a Python `str | None` value: `None` and `""` are falsy. -/
def pyTruthy : Option String → Bool
  | none => false
  | some s => s != ""

/-- A chat message as consumed by the router (`app/models.py`, `ChatMessage`);
the `created_at` field is never read by the routing code and is omitted. -/
structure ChatMessage where
  role : String
  content : String
deriving DecidableEq, Repr

/-- `TopicRoutingConfig` from `topic_router.py` (the `collection_name`
field is only used to open the collection and plays no part in the
routing logic). -/
structure TopicRoutingConfig where
  minUserTurns : ℤ
  distanceThreshold : ℚ
  scoreThreshold : ℚ
  marginThreshold : ℚ
  topK : ℤ
deriving DecidableEq, Repr

/-- The defaults of `TopicRoutingConfig` (min_user_turns=2,
distance_threshold=1.1, score_threshold=1.2, margin_threshold=0.4, top_k=3). -/
def defaultRoutingConfig : TopicRoutingConfig :=
  ⟨2, mkRat 11 10, mkRat 6 5, mkRat 2 5, 3⟩

/-- `TopicState` from `topic_router.py`. -/
structure TopicState where
  scores : ScoreMap
  selectedTopic : Option String
  turns : ℤ
deriving DecidableEq, Repr

/-- `TopicUpdate` from `topic_router.py`. -/
structure TopicUpdate where
  scores : ScoreMap
  selectedTopic : Option String
  turns : ℤ
deriving DecidableEq, Repr

/-- `TopicPromptResult` from `topic_router.py`. -/
structure TopicPromptResult where
  systemPrompt : Option String
  update : Option TopicUpdate
deriving DecidableEq, Repr

/-- `TopicMatch` from `retriever.py`. -/
structure TopicMatch where
  topic : String
  distance : ℚ
deriving DecidableEq, Repr

/-- Python `d.get(k, dflt)` on an association list. -/
def dictGet (m : ScoreMap) (k : String) (dflt : ℚ) : ℚ :=
  match m.find? (fun p => p.1 == k) with
  | some p => p.2
  | none => dflt

/-- Python `d[k] = v` on an association list: an existing key keeps its
position, a new key is appended at the end. -/
def dictSet (m : ScoreMap) (k : String) (v : ℚ) : ScoreMap :=
  if m.any (fun p => p.1 == k) then
    m.map (fun p => if p.1 == k then (k, v) else p)
  else
    m ++ [(k, v)]

/-- `_distance_to_score` from `topic_router.py`. -/
def distanceToScore (distance threshold : ℚ) : ℚ :=
  if threshold ≤ 0 then 0
  else max 0 ((threshold - distance) / threshold)

/-- `_accumulate_scores` from `topic_router.py`: fold the matches into a
copy of the current score map, skipping non-positive increments. -/
def accumulateScores (currentScores : ScoreMap) (matchList : List TopicMatch)
    (distanceThreshold : ℚ) : ScoreMap :=
  matchList.foldl
    (fun updated m =>
      let increment := distanceToScore m.distance distanceThreshold
      if increment ≤ 0 then updated
      else dictSet updated m.topic (dictGet updated m.topic 0 + increment))
    currentScores

/-- `_select_topic` from `topic_router.py`.  Python's
`sorted(scores.items(), key=lambda item: item[1], reverse=True)` is a
stable descending sort on the value, which `List.mergeSort` with the
comparison `b.2 ≤ a.2` reproduces; the `if not scores` guard of the
source coincides with the `[]` branch of the match. -/
def selectTopic (scores : ScoreMap) (scoreThreshold marginThreshold : ℚ) :
    Option String :=
  match scores.mergeSort (fun a b => decide (b.2 ≤ a.2)) with
  | [] => none
  | (topTopic, topScore) :: rest =>
    let secondScore : ℚ := match rest with | [] => 0 | r :: _ => r.2
    if topScore < scoreThreshold then none
    else if topScore - secondScore < marginThreshold then none
    else some topTopic

/-- Python `str.strip()`: drop leading and trailing whitespace. -/
def pyStrip (s : String) : String :=
  ⟨((s.data.dropWhile Char.isWhitespace).reverse.dropWhile
      Char.isWhitespace).reverse⟩

/-- `_last_user_message` from `topic_router.py`: walk the messages in
reverse and return at the FIRST user-role message, yielding its stripped
content, or `none` when that content strips to empty (`content or None`);
earlier user messages are never consulted. -/
def lastUserMessage (messages : List ChatMessage) : Option String :=
  match messages.reverse.find? (fun m => m.role == "user") with
  | none => none
  | some m =>
    let content := pyStrip m.content
    if content == "" then none else some content

/-- `CounselingTopicRouter._combine_prompts` from `topic_router.py`:
`f"{base}\n\n{topic}"` when both are truthy, else `base_prompt or
topic_prompt`. -/
def combinePrompts (basePrompt : Option String) (topicPrompt : String) : String :=
  if pyTruthy basePrompt && topicPrompt != "" then
    basePrompt.getD "" ++ "\n\n" ++ topicPrompt
  else if pyTruthy basePrompt then
    basePrompt.getD ""
  else
    topicPrompt

/-- The mutable fields of `CounselingTopicRouter` that the routing logic
reads and writes: whether `self._retriever` has been constructed
(construction itself, `TopicRetriever.__init__`, never fails) and the
cached `self._init_error` message. -/
structure RouterState where
  retrieverMade : Bool
  initError : Option String
deriving DecidableEq, Repr

/-- One observable outcome of a `build_prompt` call: the returned
`TopicPromptResult`, the router fields afterwards, whether
`TopicRetriever.query` (and hence the embedding/index machinery) was
invoked, and whether `logger.warning` fired during the call. -/
structure BuildOutcome where
  result : TopicPromptResult
  router : RouterState
  queryAttempted : Bool
  logged : Bool
deriving DecidableEq, Repr

/-- The `except (EmbeddingModelError, TopicRetrievalError)` handler of
`build_prompt`: on the first (truthy-`_init_error`-absent) failure the
cause is cached and logged, afterwards the handler is silent; either way
the call degrades to the base prompt with no update. -/
def handleRoutingFailure (rs : RouterState) (basePrompt : Option String)
    (errMsg : String) (attempted : Bool) : BuildOutcome :=
  if pyTruthy rs.initError then
    ⟨⟨basePrompt, none⟩, rs, attempted, false⟩
  else
    ⟨⟨basePrompt, none⟩, ⟨rs.retrieverMade, some errMsg⟩, attempted, true⟩

/-- `CounselingTopicRouter.build_prompt` from `topic_router.py`, with
`_ensure_retriever` inlined.  `queryOutcome` is the oracle outcome of
`self._ensure_retriever().query(...)` when that call is actually made:
`.ok` with the parsed matches, or `.error` with the message of the
raised `EmbeddingModelError`/`TopicRetrievalError`.  `_ensure_retriever`
raises the cached error without invoking the dependency only when the
retriever was never constructed (`_retriever is None`) and `_init_error`
is truthy; otherwise it (constructs and) returns the retriever and the
query is attempted. -/
def buildPrompt (rc : TopicRoutingConfig) (catalog : String → String)
    (messages : List ChatMessage) (basePrompt : Option String)
    (state : TopicState) (rs : RouterState)
    (queryOutcome : Except String (List TopicMatch)) : BuildOutcome :=
  if pyTruthy state.selectedTopic then
    let topicPrompt := catalog (state.selectedTopic.getD "")
    if topicPrompt != "" then
      ⟨⟨some (combinePrompts basePrompt topicPrompt), none⟩, rs, false, false⟩
    else
      ⟨⟨basePrompt, none⟩, rs, false, false⟩
  else
    match lastUserMessage messages with
    | none => ⟨⟨basePrompt, none⟩, rs, false, false⟩
    | some _ =>
      if !rs.retrieverMade && pyTruthy rs.initError then
        handleRoutingFailure rs basePrompt (rs.initError.getD "") false
      else
        let rs1 : RouterState := ⟨true, rs.initError⟩
        match queryOutcome with
        | .error e => handleRoutingFailure rs1 basePrompt e true
        | .ok matchList =>
          let updatedScores :=
            accumulateScores state.scores matchList rc.distanceThreshold
          let nextTurns := state.turns + 1
          let selected0 : Option String :=
            if rc.minUserTurns ≤ nextTurns then
              selectTopic updatedScores rc.scoreThreshold rc.marginThreshold
            else none
          let selected : Option String :=
            if pyTruthy selected0 && catalog (selected0.getD "") == "" then none
            else selected0
          let prompt : Option String :=
            if pyTruthy selected then
              some (combinePrompts basePrompt (catalog (selected.getD "")))
            else basePrompt
          let changed :=
            decide (updatedScores ≠ state.scores) ||
              decide (nextTurns ≠ state.turns) || selected.isSome
          let update : Option TopicUpdate :=
            if changed then some ⟨updatedScores, selected, nextTurns⟩ else none
          ⟨⟨prompt, update⟩, rs1, true, false⟩

/-- The filtering loop of `TopicRetriever.query` (`retriever.py`):
iterate over `zip(metadatas, distances)`, drop entries with a missing or
unparseable distance (modelled as `none`), drop distances above the
threshold, drop missing/empty/already-seen topics, and stop as soon as
`len(results) >= top_k` after an append. -/
def queryLoop (pairs : List (Option String × Option ℚ)) (distanceThreshold : ℚ)
    (topK : ℤ) (seen : List String) (results : List TopicMatch) :
    List TopicMatch :=
  match pairs with
  | [] => results
  | (meta, dist) :: rest =>
    match dist with
    | none => queryLoop rest distanceThreshold topK seen results
    | some d =>
      if distanceThreshold < d then
        queryLoop rest distanceThreshold topK seen results
      else
        let topic := meta.getD ""
        if topic == "" || seen.contains topic then
          queryLoop rest distanceThreshold topK seen results
        else
          let results' := results ++ [⟨topic, d⟩]
          if topK ≤ (results'.length : ℤ) then results'
          else queryLoop rest distanceThreshold topK (topic :: seen) results'

/-- The pure part of `TopicRetriever.query`: parse and filter one raw
response.  A raw metadata entry is `some t` when it is a dict carrying
`topic_main = t`, `none` when the dict or the key is missing (the source
then uses `""`, which is dropped as empty); a raw distance entry is
`some d` when `float(dist)` succeeds, `none` otherwise. -/
def queryFilter (metadatas : List (Option String)) (distances : List (Option ℚ))
    (topK : ℤ) (distanceThreshold : ℚ) : List TopicMatch :=
  queryLoop (metadatas.zip distances) distanceThreshold topK [] []

/-- Oracle outcomes of the effectful collaborators of
`TopicRetriever.query`: `_ensure_collection` (index open), the embedder
`encode` call, and the backend `collection.query` call whose raw
response is the metadata row and distance row (the source's unwrap of
`raw["metadatas"][0]` / `raw["distances"][0]`, with the empty-response
early return, is absorbed: an empty row filters to no matches). -/
structure RetrieverEnv where
  ensureCollection : Except String Unit
  encode : Except String Unit
  rawQuery : Except String (List (Option String) × List (Option ℚ))

/-- Which collaborators a `TopicRetriever.query` call actually touched. -/
structure QueryTrace where
  indexTouched : Bool
  encodeCalled : Bool
  rawQueried : Bool
deriving DecidableEq, Repr

/-- `TopicRetriever.query` from `retriever.py` with its effects explicit:
empty query text returns `[]` before any collaborator is touched;
otherwise `_ensure_collection`, then `encode`, then `collection.query`
run in order, each failure short-circuiting as a raised error. -/
def retrieverQuery (text : String) (env : RetrieverEnv) (topK : ℤ)
    (distanceThreshold : ℚ) : Except String (List TopicMatch) × QueryTrace :=
  if text == "" then (Except.ok [], ⟨false, false, false⟩)
  else
    match env.ensureCollection with
    | .error e => (.error e, ⟨true, false, false⟩)
    | .ok _ =>
      match env.encode with
      | .error e => (.error e, ⟨true, true, false⟩)
      | .ok _ =>
        match env.rawQuery with
        | .error e => (.error e, ⟨true, true, true⟩)
        | .ok (metas, dists) =>
          (.ok (queryFilter metas dists topK distanceThreshold),
            ⟨true, true, true⟩)

/-- Greatest element of a list of rationals, `0` for the empty list. -/
def listMaxQ : List ℚ → ℚ
  | [] => 0
  | v :: vs => vs.foldl max v

/-- Modelled from the spec: "let `top_score` be the best" accumulated
score of the map. -/
def specTopScore (scores : ScoreMap) : ℚ :=
  listMaxQ (scores.map Prod.snd)

/-- Modelled from the spec: "`second_score` the second-best (0 if only
one topic has ever scored)" — the greatest value left after removing one
occurrence of the best. -/
def specSecondScore (scores : ScoreMap) : ℚ :=
  listMaxQ ((scores.map Prod.snd).erase (specTopScore scores))

/-- Modelled from the spec: the well-formed entries of a raw response,
in raw order — a parsed distance within the threshold and a present,
non-empty topic label. -/
def cleanMatches (pairs : List (Option String × Option ℚ)) (dt : ℚ) :
    List TopicMatch :=
  pairs.filterMap (fun md =>
    match md.2 with
    | none => none
    | some d =>
      if dt < d then none
      else if md.1.getD "" = "" then none
      else some ⟨md.1.getD "", d⟩)

/-- C7: for every distance `d` and threshold `t`, the distance-to-score
conversion equals `max 0 ((t - d) / t)` for positive `t`; it returns `0`
for every distance when `t ≤ 0`; it is always non-negative, equals `1`
at distance `0` (for positive `t`), is `0` at and beyond the threshold,
and is monotonically decreasing in the distance. -/
theorem distanceToScore_spec (d d' t : ℚ) :
    (0 < t → distanceToScore d t = max 0 ((t - d) / t)) ∧
    (t ≤ 0 → distanceToScore d t = 0) ∧
    0 ≤ distanceToScore d t ∧
    (0 < t → distanceToScore 0 t = 1) ∧
    (t ≤ d → distanceToScore d t = 0) ∧
    (d ≤ d' → distanceToScore d' t ≤ distanceToScore d t) := by
  unfold distanceToScore
  by_cases ht : t ≤ 0
  · refine ⟨fun h => absurd h (not_lt.mpr ht), fun _ => by simp [ht], ?_, ?_, ?_, ?_⟩
    · simp [ht]
    · intro h; exact absurd h (not_lt.mpr ht)
    · intro _; simp [ht]
    · intro _; simp [ht]
  · push_neg at ht
    have htne : t ≠ 0 := ne_of_gt ht
    refine ⟨fun _ => by simp [not_le.mpr ht, ht], fun h => absurd h (not_le.mpr ht), ?_, ?_, ?_, ?_⟩
    · simp only [not_le.mpr ht, if_false]
      exact le_max_left _ _
    · intro _
      simp only [not_le.mpr ht, if_false, sub_zero, div_self htne]
      exact max_eq_right zero_le_one
    · intro hd
      simp only [not_le.mpr ht, if_false]
      have : (t - d) / t ≤ 0 :=
        div_nonpos_of_nonpos_of_nonneg (by linarith) (le_of_lt ht)
      exact max_eq_left this
    · intro hdd
      simp only [not_le.mpr ht, if_false]
      have hdiv : (t - d') / t ≤ (t - d) / t :=
        (div_le_div_iff_of_pos_right ht).mpr (by linarith)
      exact max_le_max (le_refl 0) hdiv

/-- Witness for C7 at concrete inputs. -/
theorem distanceToScore_spec_witness :
    ((0:ℚ) < 1 ∧ distanceToScore 0 1 = 1) ∧
    ((1:ℚ) ≤ 1 ∧ distanceToScore 1 1 = 0) ∧
    ((0:ℚ) ≤ 0 ∧ distanceToScore 2 0 = 0) ∧
    ((0:ℚ) ≤ 1 ∧ distanceToScore 1 1 ≤ distanceToScore 0 1) :=
  ⟨⟨by decide, (distanceToScore_spec 0 0 1).2.2.2.1 (by decide)⟩,
   ⟨by decide, (distanceToScore_spec 1 1 1).2.2.2.2.1 (by decide)⟩,
   ⟨by decide, (distanceToScore_spec 2 2 0).2.1 (by decide)⟩,
   ⟨by decide, (distanceToScore_spec 0 1 1).2.2.2.2.2 (by decide)⟩⟩

/-- C9: a query with empty text returns the empty result list without
touching the collection, without encoding and without querying the
backend, whatever the state of the backing store. -/
theorem retrieverQuery_empty_text (env : RetrieverEnv) (topK : ℤ) (dt : ℚ) :
    retrieverQuery "" env topK dt = (Except.ok [], ⟨false, false, false⟩) :=
  rfl

/-- The updated entry of `dictSet` is found at the written key. -/
theorem find?_map_set (m : ScoreMap) (k : String) (v : ℚ)
    (h : m.any (fun p => p.1 == k) = true) :
    (m.map (fun p => if p.1 == k then (k, v) else p)).find?
      (fun p => p.1 == k) = some (k, v) := by
  induction m with
  | nil => simp at h
  | cons p rest ih =>
    by_cases hp : p.1 = k
    · simp [hp]
    · have hp' : (p.1 == k) = false := by simp [hp]
      have hrest : rest.any (fun p => p.1 == k) = true := by
        simpa [hp'] using h
      simp only [List.map_cons, hp', Bool.false_eq_true, if_false]
      rw [List.find?_cons_of_neg _ (by simp [hp]), ih hrest]

/-- `dictSet` leaves entries at other keys where `find?` sees them. -/
theorem find?_map_set_ne (m : ScoreMap) (k j : String) (v : ℚ) (hjk : j ≠ k) :
    (m.map (fun p => if p.1 == k then (k, v) else p)).find?
      (fun p => p.1 == j) = m.find? (fun p => p.1 == j) := by
  induction m with
  | nil => rfl
  | cons p rest ih =>
    by_cases hpk : p.1 = k
    · have h1 : (p.1 == k) = true := by simp [hpk]
      have h3 : (p.1 == j) = false := by simp [hpk]; exact fun h => hjk h.symm
      simp only [List.map_cons, h1, if_true]
      rw [List.find?_cons_of_neg _ (by simp; exact fun h => hjk h.symm),
        List.find?_cons_of_neg _ (by simp [hpk]; exact fun h => hjk h.symm), ih]
    · have h1 : (p.1 == k) = false := by simp [hpk]
      simp only [List.map_cons, h1, Bool.false_eq_true, if_false]
      by_cases hpj : p.1 = j
      · rw [List.find?_cons_of_pos _ (by simp [hpj]),
          List.find?_cons_of_pos _ (by simp [hpj])]
      · rw [List.find?_cons_of_neg _ (by simp [hpj]),
          List.find?_cons_of_neg _ (by simp [hpj]), ih]

/-- Reading back the key just written by `dictSet`. -/
theorem dictGet_dictSet_self (m : ScoreMap) (k : String) (v d : ℚ) :
    dictGet (dictSet m k v) k d = v := by
  unfold dictSet
  by_cases h : m.any (fun p => p.1 == k) = true
  · rw [if_pos h]
    unfold dictGet
    rw [find?_map_set m k v h]
  · rw [if_neg h]
    unfold dictGet
    have hnone : m.find? (fun p => p.1 == k) = none := by
      rw [List.find?_eq_none]
      intro x hx
      have hfalse : m.any (fun p => p.1 == k) = false :=
        Bool.eq_false_iff.mpr h
      exact List.any_eq_false.mp hfalse x hx
    rw [List.find?_append, hnone]
    simp

/-- Reading another key after a `dictSet`. -/
theorem dictGet_dictSet_ne (m : ScoreMap) (k j : String) (v d : ℚ)
    (hjk : j ≠ k) : dictGet (dictSet m k v) j d = dictGet m j d := by
  unfold dictSet
  by_cases h : m.any (fun p => p.1 == k) = true
  · rw [if_pos h]
    unfold dictGet
    rw [find?_map_set_ne m k j v hjk]
  · rw [if_neg h]
    unfold dictGet
    rw [List.find?_append]
    have : [((k, v) : String × ℚ)].find? (fun p => p.1 == j) = none := by
      simp; exact fun hh => hjk hh.symm
    rw [this]
    cases m.find? (fun p => p.1 == j) <;> rfl

/-- The distance-to-score conversion never yields a negative increment. -/
theorem distanceToScore_nonneg (d t : ℚ) : 0 ≤ distanceToScore d t := by
  unfold distanceToScore
  split
  · exact le_refl 0
  · exact le_max_left 0 _

/-- C6: score accumulation is monotone — in the updated map every
topic's value is at least its prior value, and a topic not matched this
turn keeps exactly its prior total (for any read default); being a pure
function of the input map, the accumulation never mutates its input, so
per-topic totals are non-decreasing along any state lineage. -/
theorem accumulateScores_monotone (current : ScoreMap) (ms : List TopicMatch)
    (dt : ℚ) (k : String) :
    dictGet current k 0 ≤ dictGet (accumulateScores current ms dt) k 0 ∧
    ((∀ m ∈ ms, m.topic ≠ k) →
      ∀ d, dictGet (accumulateScores current ms dt) k d = dictGet current k d) := by
  induction ms generalizing current with
  | nil => exact ⟨le_refl _, fun _ _ => rfl⟩
  | cons m rest ih =>
    have hstep : accumulateScores current (m :: rest) dt =
        accumulateScores
          (if distanceToScore m.distance dt ≤ 0 then current
           else dictSet current m.topic
             (dictGet current m.topic 0 + distanceToScore m.distance dt))
          rest dt := by
      simp only [accumulateScores, List.foldl_cons]
    rw [hstep]
    rcases ih (if distanceToScore m.distance dt ≤ 0 then current
      else dictSet current m.topic
        (dictGet current m.topic 0 + distanceToScore m.distance dt)) with ⟨ih1, ih2⟩
    constructor
    · refine le_trans ?_ ih1
      by_cases hinc : distanceToScore m.distance dt ≤ 0
      · rw [if_pos hinc]
      · rw [if_neg hinc]
        by_cases hk : m.topic = k
        · rw [hk] at *
          rw [dictGet_dictSet_self]
          have hpos : 0 < distanceToScore m.distance dt := lt_of_not_le hinc
          linarith
        · rw [dictGet_dictSet_ne _ _ _ _ _ (fun h => hk h.symm)]
    · intro hms d
      have hmk : m.topic ≠ k := hms m (List.mem_cons_self _ _)
      rw [ih2 (fun x hx => hms x (List.mem_cons_of_mem _ hx)) d]
      by_cases hinc : distanceToScore m.distance dt ≤ 0
      · rw [if_pos hinc]
      · rw [if_neg hinc, dictGet_dictSet_ne _ _ _ _ _ (fun h => hmk h.symm)]

/-- Witness for C6 at concrete inputs. -/
theorem accumulateScores_monotone_witness :
    (dictGet [("a", 1)] "a" 0 ≤
      dictGet (accumulateScores [("a", 1)] [⟨"b", 0⟩] 1) "a" 0) ∧
    (∀ m ∈ ([⟨"b", 0⟩] : List TopicMatch), m.topic ≠ "a") ∧
    dictGet (accumulateScores [("a", 1)] [⟨"b", 0⟩] 1) "a" 5 =
      dictGet [("a", 1)] "a" 5 :=
  ⟨(accumulateScores_monotone [("a", 1)] [⟨"b", 0⟩] 1 "a").1,
   by decide,
   (accumulateScores_monotone [("a", 1)] [⟨"b", 0⟩] 1 "a").2 (by decide) 5⟩

/-- A degraded call never carries an update. -/
theorem handleRoutingFailure_update (rs : RouterState) (b : Option String)
    (e : String) (a : Bool) :
    (handleRoutingFailure rs b e a).result.update = none := by
  unfold handleRoutingFailure
  split <;> rfl

/-- A degraded call returns the base prompt unchanged. -/
theorem handleRoutingFailure_prompt (rs : RouterState) (b : Option String)
    (e : String) (a : Bool) :
    (handleRoutingFailure rs b e a).result.systemPrompt = b := by
  unfold handleRoutingFailure
  split <;> rfl

/-- Closed form of `build_prompt` on the successful-query path of an
uncommitted state: the update always carries the accumulated scores and
the incremented turn counter (the turn counter always changes, so the
`changed` test of the source is always true on this path). -/
theorem buildPrompt_ok_eq (rc : TopicRoutingConfig) (catalog : String → String)
    (messages : List ChatMessage) (basePrompt : Option String)
    (state : TopicState) (rs : RouterState) (ml : List TopicMatch) (lu : String)
    (s0 sel : Option String)
    (hunset : pyTruthy state.selectedTopic = false)
    (hl : lastUserMessage messages = some lu)
    (hre : (!rs.retrieverMade && pyTruthy rs.initError) = false)
    (hs0 : s0 =
      if rc.minUserTurns ≤ state.turns + 1 then
        selectTopic (accumulateScores state.scores ml rc.distanceThreshold)
          rc.scoreThreshold rc.marginThreshold
      else none)
    (hsel : sel =
      if pyTruthy s0 && catalog (s0.getD "") == "" then none else s0) :
    buildPrompt rc catalog messages basePrompt state rs (.ok ml) =
      ⟨⟨(if pyTruthy sel then
           some (combinePrompts basePrompt (catalog (sel.getD "")))
         else basePrompt),
        some ⟨accumulateScores state.scores ml rc.distanceThreshold, sel,
          state.turns + 1⟩⟩,
       ⟨true, rs.initError⟩, true, false⟩ := by
  subst hs0
  subst hsel
  have hchange : decide (state.turns + 1 ≠ state.turns) = true := by
    simp only [decide_eq_true_eq]
    omega
  simp only [buildPrompt, hunset, Bool.false_eq_true, if_false, hl, hre,
    hchange, Bool.or_true, Bool.true_or, if_true]

/-- C2: on an uncommitted state, in a session containing a user message,
no update produced by a route call carries a selected topic while the
incremented turn counter is still below `min_user_turns`. -/
theorem buildPrompt_no_commit_before_min_turns
    (rc : TopicRoutingConfig) (catalog : String → String)
    (messages : List ChatMessage) (basePrompt : Option String)
    (state : TopicState) (rs : RouterState)
    (qo : Except String (List TopicMatch)) (u : TopicUpdate)
    (hunset : pyTruthy state.selectedTopic = false)
    (huser : ∃ m ∈ messages, m.role = "user")
    (hturns : state.turns + 1 < rc.minUserTurns)
    (hupd : (buildPrompt rc catalog messages basePrompt state rs qo).result.update
      = some u) :
    u.selectedTopic = none := by
  cases hlm : lastUserMessage messages with
  | none =>
    simp only [buildPrompt, hunset, Bool.false_eq_true, if_false, hlm] at hupd
    exact absurd hupd (by simp)
  | some lu =>
    by_cases hre : (!rs.retrieverMade && pyTruthy rs.initError) = true
    · simp only [buildPrompt, hunset, Bool.false_eq_true, if_false, hlm, hre,
        if_true, handleRoutingFailure_update] at hupd
      exact absurd hupd (by simp)
    · have hre' : (!rs.retrieverMade && pyTruthy rs.initError) = false :=
        Bool.eq_false_iff.mpr hre
      cases qo with
      | error e =>
        simp only [buildPrompt, hunset, Bool.false_eq_true, if_false, hlm, hre',
          handleRoutingFailure_update] at hupd
        exact absurd hupd (by simp)
      | ok ml =>
        have hs0 : (none : Option String) =
            (if rc.minUserTurns ≤ state.turns + 1 then
              selectTopic (accumulateScores state.scores ml rc.distanceThreshold)
                rc.scoreThreshold rc.marginThreshold
            else none) := by
          simp [not_le.mpr hturns]
        rw [buildPrompt_ok_eq rc catalog messages basePrompt state rs ml lu
          none none hunset hlm hre' hs0 (by simp [pyTruthy])] at hupd
        simp only [Option.some_inj] at hupd
        rw [← hupd]

/-- Witness for C2 at concrete inputs. -/
theorem buildPrompt_no_commit_before_min_turns_witness :
    ((0:ℤ) + 1 < 2) ∧
    (buildPrompt defaultRoutingConfig (fun _ => "F") [⟨"user", "hi"⟩] none
      ⟨[], none, 0⟩ ⟨true, none⟩ (.ok [])).result.update = some ⟨[], none, 1⟩ ∧
    (⟨[], none, 1⟩ : TopicUpdate).selectedTopic = none :=
  ⟨by decide, by decide,
   buildPrompt_no_commit_before_min_turns defaultRoutingConfig (fun _ => "F")
     [⟨"user", "hi"⟩] none ⟨[], none, 0⟩ ⟨true, none⟩ (.ok []) ⟨[], none, 1⟩
     (by decide) ⟨⟨"user", "hi"⟩, by decide, rfl⟩ (by decide) (by decide)⟩

/-- Combining a base prompt with an empty fragment gives the base
prompt's text. -/
theorem combinePrompts_empty (b : Option String) :
    combinePrompts b "" = b.getD "" := by
  cases b with
  | none => rfl
  | some s =>
    unfold combinePrompts
    by_cases hs : s = ""
    · subst hs; rfl
    · simp [pyTruthy, hs]

/-- C4: a route call on a committed state (selected topic set to a
non-empty topic id) is terminal and idempotent — the effective prompt is
the base prompt combined with the topic's fixed catalog fragment (the
base prompt alone when the fragment is empty, which is what the
composition rule yields for an empty fragment), no update is produced,
the router fields are untouched, no embedding or index call is made,
nothing is logged, and the outcome does not depend on the query oracle
at all. -/
theorem buildPrompt_committed_terminal
    (rc : TopicRoutingConfig) (catalog : String → String)
    (messages : List ChatMessage) (basePrompt : Option String)
    (state : TopicState) (rs : RouterState)
    (qo : Except String (List TopicMatch)) (t : String)
    (hsel : state.selectedTopic = some t) (hne : t ≠ "") :
    (buildPrompt rc catalog messages basePrompt state rs qo).result.update
      = none ∧
    (buildPrompt rc catalog messages basePrompt state rs
        qo).result.systemPrompt.getD "" = combinePrompts basePrompt (catalog t) ∧
    (buildPrompt rc catalog messages basePrompt state rs qo).router = rs ∧
    (buildPrompt rc catalog messages basePrompt state rs qo).queryAttempted
      = false ∧
    (buildPrompt rc catalog messages basePrompt state rs qo).logged = false ∧
    ∀ qo', buildPrompt rc catalog messages basePrompt state rs qo' =
      buildPrompt rc catalog messages basePrompt state rs qo := by
  have htr : pyTruthy state.selectedTopic = true := by
    rw [hsel]; simp [pyTruthy, hne]
  have hgd : state.selectedTopic.getD "" = t := by rw [hsel]; rfl
  by_cases hfrag : (catalog t != "") = true
  · simp [buildPrompt, htr, hgd, hfrag]
  · have hfrag' : (catalog t != "") = false := Bool.eq_false_iff.mpr hfrag
    have hempty : catalog t = "" := by simpa using hfrag'
    simp [buildPrompt, htr, hgd, hfrag', hempty, combinePrompts_empty]

/-- Witness for C4 at concrete inputs. -/
theorem buildPrompt_committed_terminal_witness :
    ("anxiety" : String) ≠ "" ∧
    (buildPrompt defaultRoutingConfig (fun _ => "F") [] (some "B")
      ⟨[], some "anxiety", 3⟩ ⟨false, none⟩ (.ok [])).result.update = none ∧
    (buildPrompt defaultRoutingConfig (fun _ => "F") [] (some "B")
      ⟨[], some "anxiety", 3⟩ ⟨false, none⟩
      (.ok [])).result.systemPrompt.getD "" = combinePrompts (some "B") "F" ∧
    (buildPrompt defaultRoutingConfig (fun _ => "F") [] (some "B")
      ⟨[], some "anxiety", 3⟩ ⟨false, none⟩ (.ok [])).queryAttempted = false :=
  have h := buildPrompt_committed_terminal defaultRoutingConfig (fun _ => "F")
    [] (some "B") ⟨[], some "anxiety", 3⟩ ⟨false, none⟩ (.ok []) "anxiety"
    rfl (by decide)
  ⟨by decide, h.1, h.2.1, h.2.2.2.1⟩

/-- C10: when the most recent user-role message strips to empty, an
uncommitted route call returns the base prompt unchanged with no update,
touches neither the embedder nor the index, logs nothing and leaves the
router fields unchanged — exactly as if no user message existed; earlier
user messages are never consulted. -/
theorem buildPrompt_blank_last_user
    (rc : TopicRoutingConfig) (catalog : String → String)
    (messages : List ChatMessage) (basePrompt : Option String)
    (state : TopicState) (rs : RouterState)
    (qo : Except String (List TopicMatch)) (m : ChatMessage)
    (hunset : pyTruthy state.selectedTopic = false)
    (hfind : messages.reverse.find? (fun msg => msg.role == "user") = some m)
    (hblank : pyStrip m.content = "") :
    buildPrompt rc catalog messages basePrompt state rs qo =
      ⟨⟨basePrompt, none⟩, rs, false, false⟩ := by
  have hlm : lastUserMessage messages = none := by
    unfold lastUserMessage
    rw [hfind]
    simp [hblank]
  simp only [buildPrompt, hunset, Bool.false_eq_true, if_false, hlm]

/-- Witness for C10 at concrete inputs: the whitespace-only latest user
message voids the turn even though an earlier non-blank user message
exists. -/
theorem buildPrompt_blank_last_user_witness :
    ([⟨"user", "old"⟩, ⟨"assistant", "x"⟩, ⟨"user", "  "⟩] :
        List ChatMessage).reverse.find? (fun msg => msg.role == "user")
      = some ⟨"user", "  "⟩ ∧
    pyStrip "  " = "" ∧
    buildPrompt defaultRoutingConfig (fun _ => "F")
      [⟨"user", "old"⟩, ⟨"assistant", "x"⟩, ⟨"user", "  "⟩] (some "B")
      ⟨[], none, 0⟩ ⟨false, none⟩ (.error "down") =
      ⟨⟨some "B", none⟩, ⟨false, none⟩, false, false⟩ :=
  ⟨by decide, by decide,
   buildPrompt_blank_last_user defaultRoutingConfig (fun _ => "F")
     [⟨"user", "old"⟩, ⟨"assistant", "x"⟩, ⟨"user", "  "⟩] (some "B")
     ⟨[], none, 0⟩ ⟨false, none⟩ (.error "down") ⟨"user", "  "⟩
     (by decide) (by decide) (by decide)⟩

/-- Counterexample to C5 as stated: after a first failing call (cause
cached as `"boom"`, logged), a second call on the same uncommitted state
invokes the dependency again (`queryAttempted = true`) — the retriever
object already exists, so `_ensure_retriever` returns it instead of
raising the cached error — and, the oracle now succeeding, the call
produces an update instead of degrading.  So the degradation is not
permanent for the instance's lifetime. -/
theorem buildPrompt_failure_not_permanent_cex :
    buildPrompt defaultRoutingConfig (fun _ => "F") [⟨"user", "hello"⟩]
        (some "B") ⟨[], none, 0⟩ ⟨false, none⟩ (.error "boom") =
      ⟨⟨some "B", none⟩, ⟨true, some "boom"⟩, true, true⟩ ∧
    buildPrompt defaultRoutingConfig (fun _ => "F") [⟨"user", "hello"⟩]
        (some "B") ⟨[], none, 0⟩ ⟨true, some "boom"⟩ (.ok []) =
      ⟨⟨some "B", some ⟨[], none, 1⟩⟩, ⟨true, some "boom"⟩, true, false⟩ := by
  decide

/-- C5 (amended): when the query path fails on an uncommitted state with
a user message, the call returns the base prompt unchanged with no
update; on the first failure (no truthy cached cause) the cause is
cached on the router and the warning is logged; on later failures the
cached cause is kept, nothing is re-logged, and the dependency is
re-invoked exactly when the retriever object already exists (it is
skipped only in the edge state where a cause is cached before the
retriever was ever constructed). -/
theorem buildPrompt_failure_degrades
    (rc : TopicRoutingConfig) (catalog : String → String)
    (messages : List ChatMessage) (basePrompt : Option String)
    (state : TopicState) (rs : RouterState) (e lu : String)
    (hunset : pyTruthy state.selectedTopic = false)
    (hl : lastUserMessage messages = some lu) :
    (buildPrompt rc catalog messages basePrompt state rs (.error e)).result =
      ⟨basePrompt, none⟩ ∧
    (pyTruthy rs.initError = false →
      (buildPrompt rc catalog messages basePrompt state rs (.error e)).router =
        ⟨true, some e⟩ ∧
      (buildPrompt rc catalog messages basePrompt state rs (.error e)).logged =
        true) ∧
    (pyTruthy rs.initError = true →
      (buildPrompt rc catalog messages basePrompt state rs
          (.error e)).router.initError = rs.initError ∧
      (buildPrompt rc catalog messages basePrompt state rs (.error e)).logged =
        false ∧
      (buildPrompt rc catalog messages basePrompt state rs
          (.error e)).queryAttempted = rs.retrieverMade) := by
  cases hpt : pyTruthy rs.initError with
  | true =>
    cases hmade : rs.retrieverMade with
    | false =>
      simp [buildPrompt, hunset, hl, hpt, hmade, handleRoutingFailure]
    | true =>
      simp [buildPrompt, hunset, hl, hpt, hmade, handleRoutingFailure]
  | false =>
    simp [buildPrompt, hunset, hl, hpt, handleRoutingFailure]

/-- Witness for C5 (amended) at concrete inputs. -/
theorem buildPrompt_failure_degrades_witness :
    (buildPrompt defaultRoutingConfig (fun _ => "F") [⟨"user", "hi"⟩]
        (some "B") ⟨[], none, 4⟩ ⟨true, some "old"⟩ (.error "again")).result =
      ⟨some "B", none⟩ ∧
    (buildPrompt defaultRoutingConfig (fun _ => "F") [⟨"user", "hi"⟩]
        (some "B") ⟨[], none, 4⟩ ⟨true, some "old"⟩
        (.error "again")).router.initError = some "old" ∧
    (buildPrompt defaultRoutingConfig (fun _ => "F") [⟨"user", "hi"⟩]
        (some "B") ⟨[], none, 4⟩ ⟨true, some "old"⟩ (.error "again")).logged =
      false :=
  have h := buildPrompt_failure_degrades defaultRoutingConfig (fun _ => "F")
    [⟨"user", "hi"⟩] (some "B") ⟨[], none, 4⟩ ⟨true, some "old"⟩ "again" "hi"
    (by decide) (by decide)
  ⟨h.1, (h.2.2 (by decide)).1, (h.2.2 (by decide)).2.1⟩

unseal List.merge List.mergeSort Rat.sub in
/-- Counterexample to C3 as stated: when the empty-string pseudo-topic
tops the scores, Python's truthiness test `if selected_topic and not
SYSTEM_PROMPT_EXAMPLES.get(selected_topic)` skips the fragment check
(the empty string is falsy), so the returned update does set
`selected_topic` to `""` — a topic whose catalog fragment (here the
constant-empty catalog) is missing/empty. -/
theorem buildPrompt_fragmentless_commit_cex :
    (buildPrompt defaultRoutingConfig (fun _ => "") [⟨"user", "hi"⟩] (some "B")
        ⟨[("", 5)], none, 5⟩ ⟨true, none⟩ (.ok [])).result.update =
      some ⟨[("", 5)], some "", 6⟩ ∧
    (fun (_ : String) => "") "" = "" := by
  exact ⟨by decide, rfl⟩

/-- C3 (amended): a NON-EMPTY topic id whose catalog fragment is missing
or empty is never set as `selected_topic` in a returned update (the
empty-string pseudo-topic can slip through the truthiness-guarded
fragment check, but it is itself falsy and treated as unset downstream);
and on every successful evaluation turn the update carries the advanced
score map and the incremented turn counter, whether or not a numeric
selection was voided, so evidence keeps accumulating. -/
theorem buildPrompt_fragment_guard
    (rc : TopicRoutingConfig) (catalog : String → String)
    (messages : List ChatMessage) (basePrompt : Option String)
    (state : TopicState) (rs : RouterState)
    (qo : Except String (List TopicMatch)) :
    (∀ u t,
      (buildPrompt rc catalog messages basePrompt state rs qo).result.update
        = some u →
      u.selectedTopic = some t → t ≠ "" → catalog t ≠ "") ∧
    (∀ ml lu, qo = .ok ml →
      pyTruthy state.selectedTopic = false →
      lastUserMessage messages = some lu →
      (!rs.retrieverMade && pyTruthy rs.initError) = false →
      ∃ sel,
        (buildPrompt rc catalog messages basePrompt state rs qo).result.update
          = some ⟨accumulateScores state.scores ml rc.distanceThreshold, sel,
              state.turns + 1⟩) := by
  constructor
  · intro u t hupd hseltop hne
    by_cases hunset : pyTruthy state.selectedTopic = true
    · simp only [buildPrompt, hunset, if_true] at hupd
      split at hupd <;> exact absurd hupd (by simp)
    · have hunset' : pyTruthy state.selectedTopic = false :=
        Bool.eq_false_iff.mpr hunset
      cases hlm : lastUserMessage messages with
      | none =>
        simp only [buildPrompt, hunset', Bool.false_eq_true, if_false, hlm]
          at hupd
        exact absurd hupd (by simp)
      | some lu =>
        by_cases hre : (!rs.retrieverMade && pyTruthy rs.initError) = true
        · simp only [buildPrompt, hunset', Bool.false_eq_true, if_false, hlm,
            hre, if_true, handleRoutingFailure_update] at hupd
          exact absurd hupd (by simp)
        · have hre' : (!rs.retrieverMade && pyTruthy rs.initError) = false :=
            Bool.eq_false_iff.mpr hre
          cases qo with
          | error e =>
            simp only [buildPrompt, hunset', Bool.false_eq_true, if_false, hlm,
              hre', handleRoutingFailure_update] at hupd
            exact absurd hupd (by simp)
          | ok ml =>
            rw [buildPrompt_ok_eq rc catalog messages basePrompt state rs ml lu
              _ _ hunset' hlm hre' rfl rfl] at hupd
            simp only [Option.some_inj] at hupd
            rw [← hupd] at hseltop
            simp only at hseltop
            by_cases hcond :
                (pyTruthy (if rc.minUserTurns ≤ state.turns + 1 then
                    selectTopic
                      (accumulateScores state.scores ml rc.distanceThreshold)
                      rc.scoreThreshold rc.marginThreshold
                  else none) &&
                 catalog ((if rc.minUserTurns ≤ state.turns + 1 then
                    selectTopic
                      (accumulateScores state.scores ml rc.distanceThreshold)
                      rc.scoreThreshold rc.marginThreshold
                  else none).getD "") == "") = true
            · rw [if_pos hcond] at hseltop
              exact absurd hseltop (by simp)
            · have hcond' := Bool.eq_false_iff.mpr hcond
              simp only [hcond', Bool.false_eq_true, if_false] at hseltop
              rw [hseltop] at hcond'
              intro hcat
              simp [pyTruthy, hne, hcat] at hcond'
  · intro ml lu hqo hunset hlm hre
    subst hqo
    rw [buildPrompt_ok_eq rc catalog messages basePrompt state rs ml lu
      _ _ hunset hlm hre rfl rfl]
    exact ⟨_, rfl⟩

/-- Witness for C3 (amended) at concrete inputs. -/
theorem buildPrompt_fragment_guard_witness :
    (buildPrompt defaultRoutingConfig (fun _ => "F") [⟨"user", "hi"⟩]
      (some "B") ⟨[("a", 1)], none, 0⟩ ⟨true, none⟩ (.ok [])).result.update =
      some ⟨[("a", 1)], none, 1⟩ ∧
    ∃ sel,
      (buildPrompt defaultRoutingConfig (fun _ => "F") [⟨"user", "hi"⟩]
        (some "B") ⟨[("a", 1)], none, 0⟩ ⟨true, none⟩ (.ok [])).result.update =
        some ⟨accumulateScores [("a", 1)] []
          defaultRoutingConfig.distanceThreshold, sel, (0:ℤ) + 1⟩ :=
  ⟨by decide,
   (buildPrompt_fragment_guard defaultRoutingConfig (fun _ => "F")
     [⟨"user", "hi"⟩] (some "B") ⟨[("a", 1)], none, 0⟩ ⟨true, none⟩
     (.ok [])).2 [] "hi" rfl (by decide) (by decide) (by decide)⟩

/-- The running maximum of a non-empty list is one of its elements. -/
theorem listMaxQ_mem : ∀ (vs : List ℚ) (v : ℚ), vs.foldl max v ∈ v :: vs := by
  intro vs
  induction vs with
  | nil => intro v; simp
  | cons w vs ih =>
    intro v
    have h := ih (max v w)
    rw [List.foldl_cons]
    rcases List.mem_cons.mp h with h1 | h1
    · rw [h1]
      rcases max_choice v w with hm | hm <;> rw [hm] <;> simp
    · exact List.mem_cons_of_mem _ (List.mem_cons_of_mem _ h1)

/-- Every element of a list is bounded by its running maximum. -/
theorem le_listMaxQ : ∀ (vs : List ℚ) (v : ℚ),
    v ≤ vs.foldl max v ∧ ∀ x ∈ vs, x ≤ vs.foldl max v := by
  intro vs
  induction vs with
  | nil => intro v; exact ⟨le_refl v, by simp⟩
  | cons w vs ih =>
    intro v
    rcases ih (max v w) with ⟨h1, h2⟩
    refine ⟨le_trans (le_max_left v w) h1, ?_⟩
    intro x hx
    rcases List.mem_cons.mp hx with hx | hx
    · rw [hx]
      exact le_trans (le_max_right v w) h1
    · exact h2 x hx

/-- `listMaxQ` is the greatest element of a list containing a greatest
element. -/
theorem listMaxQ_eq_of (l : List ℚ) (x : ℚ) (hx : x ∈ l)
    (hle : ∀ y ∈ l, y ≤ x) : listMaxQ l = x := by
  cases l with
  | nil => simp at hx
  | cons v vs =>
    unfold listMaxQ
    refine le_antisymm (hle _ ?_) ?_
    · exact listMaxQ_mem vs v
    · rcases List.mem_cons.mp hx with hx | hx
      · subst hx; exact (le_listMaxQ vs x).1
      · exact (le_listMaxQ vs v).2 x hx

/-- Computation rule for `selectTopic` once the ranking is known. -/
theorem selectTopic_cons_eq (scores : ScoreMap) (st mt : ℚ) (tt : String)
    (ts : ℚ) (rest : List (String × ℚ))
    (hr : scores.mergeSort (fun a b => decide (b.2 ≤ a.2)) = (tt, ts) :: rest) :
    selectTopic scores st mt =
      (if ts < st then none
       else if ts - (rest.map Prod.snd).headD 0 < mt then none
       else some tt) := by
  unfold selectTopic
  rw [hr]
  cases rest <;> rfl

/-- C1: for every non-empty score map, the decision policy commits
(returns a topic) exactly when both `score_threshold ≤ top_score` and
`margin_threshold ≤ top_score - second_score` hold, where `top_score` is
the greatest accumulated score and `second_score` the second-greatest
(0 when only one topic has scored); boundary equality commits, and
violating either condition alone yields no topic. -/
theorem selectTopic_commits_iff (scores : ScoreMap) (st mt : ℚ)
    (hne : scores ≠ []) :
    (selectTopic scores st mt).isSome = true ↔
      (st ≤ specTopScore scores ∧
       mt ≤ specTopScore scores - specSecondScore scores) := by
  have htrans : ∀ a b c : String × ℚ,
      decide (b.2 ≤ a.2) = true → decide (c.2 ≤ b.2) = true →
      decide (c.2 ≤ a.2) = true := by
    intro a b c hab hbc
    simp only [decide_eq_true_eq] at *
    exact le_trans hbc hab
  have htotal : ∀ a b : String × ℚ,
      (decide (b.2 ≤ a.2) || decide (a.2 ≤ b.2)) = true := by
    intro a b
    simp only [Bool.or_eq_true, decide_eq_true_eq]
    exact le_total b.2 a.2
  have hsorted : (scores.mergeSort (fun a b => decide (b.2 ≤ a.2))).Pairwise
      (fun a b : String × ℚ => decide (b.2 ≤ a.2) = true) :=
    @List.sorted_mergeSort (String × ℚ) (fun a b => decide (b.2 ≤ a.2))
      htrans htotal scores
  have hperm :=
    List.mergeSort_perm scores (fun a b : String × ℚ => decide (b.2 ≤ a.2))
  cases hr : scores.mergeSort (fun a b : String × ℚ => decide (b.2 ≤ a.2)) with
  | nil =>
    rw [hr] at hperm
    exact absurd hperm.nil_eq.symm hne
  | cons top rest =>
    rw [hr] at hperm hsorted
    obtain ⟨tt, ts⟩ := top
    have hvperm : List.Perm (ts :: rest.map Prod.snd) (scores.map Prod.snd) := by
      have h := hperm.map Prod.snd
      simpa using h
    have hhead : ∀ p ∈ rest, p.2 ≤ ts := by
      intro p hp
      have h := (List.pairwise_cons.mp hsorted).1 p hp
      simpa using h
    have htop_mem : ts ∈ scores.map Prod.snd :=
      hvperm.mem_iff.mp (List.mem_cons_self _ _)
    have htop_le : ∀ y ∈ scores.map Prod.snd, y ≤ ts := by
      intro y hy
      have hy' : y ∈ ts :: rest.map Prod.snd := hvperm.mem_iff.mpr hy
      rcases List.mem_cons.mp hy' with h | h
      · rw [h]
      · rcases List.mem_map.mp h with ⟨p, hp, hpy⟩
        rw [← hpy]
        exact hhead p hp
    have hts : specTopScore scores = ts :=
      listMaxQ_eq_of _ ts htop_mem htop_le
    have herase : List.Perm ((scores.map Prod.snd).erase ts) (rest.map Prod.snd) := by
      have h1 := hvperm.erase ts
      rw [List.erase_cons_head] at h1
      exact h1.symm
    have hsec : specSecondScore scores = (rest.map Prod.snd).headD 0 := by
      unfold specSecondScore
      rw [hts]
      cases rest with
      | nil =>
        have hnilv : (scores.map Prod.snd).erase ts = [] := by
          simpa using herase.eq_nil
        rw [hnilv]
        rfl
      | cons r rest' =>
        simp only [List.map_cons, List.headD_cons]
        have hrsorted := (List.pairwise_cons.mp hsorted).2
        have hrhead : ∀ p ∈ rest', p.2 ≤ r.2 := by
          intro p hp
          have h := (List.pairwise_cons.mp hrsorted).1 p hp
          simpa using h
        have hmem : r.2 ∈ (scores.map Prod.snd).erase ts := by
          apply herase.mem_iff.mpr
          simp
        have hle : ∀ y ∈ (scores.map Prod.snd).erase ts, y ≤ r.2 := by
          intro y hy
          have hy' : y ∈ r.2 :: rest'.map Prod.snd := by
            have h := herase.mem_iff.mp hy
            simpa using h
          rcases List.mem_cons.mp hy' with h | h
          · rw [h]
          · rcases List.mem_map.mp h with ⟨p, hp, hpy⟩
            rw [← hpy]
            exact hrhead p hp
        exact listMaxQ_eq_of _ _ hmem hle
    rw [selectTopic_cons_eq scores st mt tt ts rest hr, hts, hsec]
    by_cases h1 : ts < st
    · rw [if_pos h1]
      simp only [Option.isSome_none, Bool.false_eq_true, false_iff]
      intro hc
      exact absurd hc.1 (not_le.mpr h1)
    · rw [if_neg h1]
      by_cases h2 : ts - (rest.map Prod.snd).headD 0 < mt
      · rw [if_pos h2]
        simp only [Option.isSome_none, Bool.false_eq_true, false_iff]
        intro hc
        exact absurd hc.2 (not_le.mpr h2)
      · rw [if_neg h2]
        simp only [Option.isSome_some, true_iff]
        exact ⟨not_lt.mp h1, not_lt.mp h2⟩

unseal Rat.sub in
/-- Witness for C1 at concrete inputs: a single topic at score 3 commits
against thresholds 1 and 1 (second score 0). -/
theorem selectTopic_commits_iff_witness :
    (([("anxiety", (3:ℚ))] : ScoreMap) ≠ []) ∧
    (selectTopic [("anxiety", (3:ℚ))] 1 1).isSome = true :=
  ⟨by decide,
   (selectTopic_commits_iff [("anxiety", (3:ℚ))] 1 1 (by decide)).mpr
     (by decide)⟩

/-- Every well-formed entry respects the distance ceiling and has a
non-empty topic. -/
theorem mem_cleanMatches (pairs : List (Option String × Option ℚ)) (dt : ℚ)
    (m : TopicMatch) (hm : m ∈ cleanMatches pairs dt) :
    m.distance ≤ dt ∧ m.topic ≠ "" := by
  unfold cleanMatches at hm
  rcases List.mem_filterMap.mp hm with ⟨md, _, hf⟩
  rcases md with ⟨meta, dist⟩
  cases dist with
  | none => simp at hf
  | some d =>
    simp only at hf
    by_cases hd : dt < d
    · rw [if_pos hd] at hf; simp at hf
    · rw [if_neg hd] at hf
      by_cases ht : meta.getD "" = ""
      · rw [if_pos ht] at hf; simp at hf
      · rw [if_neg ht] at hf
        have hm' : m = ⟨meta.getD "", d⟩ := by
          simpa using hf.symm
        rw [hm']
        exact ⟨not_lt.mp hd, ht⟩

/-- The distances of the well-formed entries form a sublist of all the
parsed raw distances, in order. -/
theorem cleanMatches_distances_sublist
    (pairs : List (Option String × Option ℚ)) (dt : ℚ) :
    ((cleanMatches pairs dt).map TopicMatch.distance).Sublist
      (pairs.filterMap Prod.snd) := by
  induction pairs with
  | nil => simp [cleanMatches]
  | cons md rest ih =>
    obtain ⟨meta, dist⟩ := md
    cases dist with
    | none =>
      simpa [cleanMatches, List.filterMap_cons] using ih
    | some d =>
      by_cases hd : dt < d
      · have hc : cleanMatches ((meta, some d) :: rest) dt =
            cleanMatches rest dt := by
          simp [cleanMatches, List.filterMap_cons, hd]
        rw [hc]
        have hr : ((meta, some d) :: rest).filterMap Prod.snd =
            d :: rest.filterMap Prod.snd := by
          simp [List.filterMap_cons]
        rw [hr]
        exact ih.cons _
      · by_cases htopic : meta.getD "" = ""
        · have hc : cleanMatches ((meta, some d) :: rest) dt =
              cleanMatches rest dt := by
            simp [cleanMatches, List.filterMap_cons, hd, htopic]
          rw [hc]
          have hr : ((meta, some d) :: rest).filterMap Prod.snd =
              d :: rest.filterMap Prod.snd := by
            simp [List.filterMap_cons]
          rw [hr]
          exact ih.cons _
        · have hc : cleanMatches ((meta, some d) :: rest) dt =
              ⟨meta.getD "", d⟩ :: cleanMatches rest dt := by
            simp [cleanMatches, List.filterMap_cons, hd, htopic]
          rw [hc]
          have hr : ((meta, some d) :: rest).filterMap Prod.snd =
              d :: rest.filterMap Prod.snd := by
            simp [List.filterMap_cons]
          rw [hr]
          simp only [List.map_cons]
          exact ih.cons₂ _

/-- Invariant of the filtering loop of `TopicRetriever.query`: the loop
appends to `results` a suffix that is an in-order selection (sublist) of
the well-formed entries, whose topics avoid `seen`, are pairwise
distinct, and each of which is the FIRST well-formed occurrence of its
topic. -/
theorem queryLoop_invariant (dt : ℚ) (topK : ℤ) :
    ∀ (pairs : List (Option String × Option ℚ)) (seen : List String)
      (results : List TopicMatch),
      ∃ suffix : List TopicMatch,
        queryLoop pairs dt topK seen results = results ++ suffix ∧
        suffix.Sublist (cleanMatches pairs dt) ∧
        (∀ m ∈ suffix, m.topic ∉ seen) ∧
        (∀ m ∈ suffix,
          (cleanMatches pairs dt).find? (fun c => c.topic == m.topic)
            = some m) ∧
        (suffix.map TopicMatch.topic).Nodup := by
  intro pairs
  induction pairs with
  | nil =>
    intro seen results
    exact ⟨[], by simp [queryLoop], by simp [cleanMatches], by simp, by simp,
      by simp⟩
  | cons md rest ih =>
    intro seen results
    obtain ⟨meta, dist⟩ := md
    cases dist with
    | none =>
      obtain ⟨suffix, h1, h2, h3, h4, h5⟩ := ih seen results
      have hclean : cleanMatches ((meta, none) :: rest) dt =
          cleanMatches rest dt := by
        simp [cleanMatches, List.filterMap_cons]
      refine ⟨suffix, ?_, ?_, h3, ?_, h5⟩
      · simpa [queryLoop] using h1
      · rw [hclean]; exact h2
      · rw [hclean]; exact h4
    | some d =>
      by_cases hd : dt < d
      · obtain ⟨suffix, h1, h2, h3, h4, h5⟩ := ih seen results
        have hclean : cleanMatches ((meta, some d) :: rest) dt =
            cleanMatches rest dt := by
          simp [cleanMatches, List.filterMap_cons, hd]
        refine ⟨suffix, ?_, ?_, h3, ?_, h5⟩
        · simpa [queryLoop, hd] using h1
        · rw [hclean]; exact h2
        · rw [hclean]; exact h4
      · by_cases htopic : meta.getD "" = ""
        · obtain ⟨suffix, h1, h2, h3, h4, h5⟩ := ih seen results
          have hclean : cleanMatches ((meta, some d) :: rest) dt =
              cleanMatches rest dt := by
            simp [cleanMatches, List.filterMap_cons, hd, htopic]
          refine ⟨suffix, ?_, ?_, h3, ?_, h5⟩
          · simpa [queryLoop, hd, htopic] using h1
          · rw [hclean]; exact h2
          · rw [hclean]; exact h4
        · have hclean : cleanMatches ((meta, some d) :: rest) dt =
              ⟨meta.getD "", d⟩ :: cleanMatches rest dt := by
            simp [cleanMatches, List.filterMap_cons, hd, htopic]
          by_cases hseen : meta.getD "" ∈ seen
          · obtain ⟨suffix, h1, h2, h3, h4, h5⟩ := ih seen results
            refine ⟨suffix, ?_, ?_, h3, ?_, h5⟩
            · simpa [queryLoop, hd, htopic, hseen] using h1
            · rw [hclean]; exact h2.cons _
            · rw [hclean]
              intro m hm
              have hne : m.topic ≠ meta.getD "" := by
                intro he
                exact (h3 m hm) (he ▸ hseen)
              rw [List.find?_cons_of_neg]
              · exact h4 m hm
              · simp only [decide_eq_true_eq, beq_iff_eq]
                exact fun he => hne he.symm
          · by_cases hstop : topK ≤ (results.length : ℤ) + 1
            · refine ⟨[⟨meta.getD "", d⟩], ?_, ?_, ?_, ?_, by simp⟩
              · simp [queryLoop, hd, htopic, hseen, hstop]
              · rw [hclean]
                exact (List.nil_sublist _).cons₂ _
              · intro m hm
                rcases List.mem_cons.mp hm with h | h
                · rw [h]; exact hseen
                · simp at h
              · intro m hm
                rcases List.mem_cons.mp hm with h | h
                · rw [hclean, h]
                  rw [List.find?_cons_of_pos]
                  simp
                · simp at h
            · obtain ⟨suffix, h1, h2, h3, h4, h5⟩ :=
                ih (meta.getD "" :: seen) (results ++ [⟨meta.getD "", d⟩])
              refine ⟨⟨meta.getD "", d⟩ :: suffix, ?_, ?_, ?_, ?_, ?_⟩
              · have hloop : queryLoop ((meta, some d) :: rest) dt topK seen
                    results = queryLoop rest dt topK (meta.getD "" :: seen)
                    (results ++ [⟨meta.getD "", d⟩]) := by
                  simp [queryLoop, hd, htopic, hseen, hstop]
                rw [hloop, h1]
                simp
              · rw [hclean]
                exact h2.cons₂ _
              · intro m hm
                rcases List.mem_cons.mp hm with h | h
                · rw [h]; exact hseen
                · intro hc
                  exact (h3 m h) (List.mem_cons_of_mem _ hc)
              · intro m hm
                rcases List.mem_cons.mp hm with h | h
                · rw [hclean, h]
                  rw [List.find?_cons_of_pos]
                  simp
                · have hne : m.topic ≠ meta.getD "" := by
                    intro he
                    exact (h3 m h) (he ▸ List.mem_cons_self _ _)
                  rw [hclean, List.find?_cons_of_neg]
                  · exact h4 m h
                  · simp only [decide_eq_true_eq, beq_iff_eq]
                    exact fun he => hne he.symm
              · simp only [List.map_cons, List.nodup_cons]
                constructor
                · intro hmem
                  rcases List.mem_map.mp hmem with ⟨m, hm, hmt⟩
                  exact (h3 m hm) (hmt ▸ List.mem_cons_self _ _)
                · exact h5

/-- The filtering loop never grows `results` beyond `top_k` when it
enters with strictly fewer than `top_k` results. -/
theorem queryLoop_length (dt : ℚ) (topK : ℤ) :
    ∀ (pairs : List (Option String × Option ℚ)) (seen : List String)
      (results : List TopicMatch),
      (results.length : ℤ) < topK →
      ((queryLoop pairs dt topK seen results).length : ℤ) ≤ topK := by
  intro pairs
  induction pairs with
  | nil =>
    intro seen results h
    simpa [queryLoop] using le_of_lt h
  | cons md rest ih =>
    intro seen results h
    obtain ⟨meta, dist⟩ := md
    cases dist with
    | none => simpa [queryLoop] using ih seen results h
    | some d =>
      by_cases hd : dt < d
      · simpa [queryLoop, hd] using ih seen results h
      · by_cases htopic : meta.getD "" = ""
        · simpa [queryLoop, hd, htopic] using ih seen results h
        · by_cases hseen : meta.getD "" ∈ seen
          · simpa [queryLoop, hd, htopic, hseen] using ih seen results h
          · by_cases hstop : topK ≤ (results.length : ℤ) + 1
            · have hloop : queryLoop ((meta, some d) :: rest) dt topK seen
                  results = results ++ [⟨meta.getD "", d⟩] := by
                simp [queryLoop, hd, htopic, hseen, hstop]
              rw [hloop]
              simp only [List.length_append, List.length_cons,
                List.length_nil]
              push_cast
              omega
            · have hloop : queryLoop ((meta, some d) :: rest) dt topK seen
                  results = queryLoop rest dt topK (meta.getD "" :: seen)
                  (results ++ [⟨meta.getD "", d⟩]) := by
                simp [queryLoop, hd, htopic, hseen, hstop]
              rw [hloop]
              apply ih
              simp only [List.length_append, List.length_cons,
                List.length_nil]
              push_cast
              omega

/-- Counterexample to C8 as stated: with `top_k = 0` the loop appends
the first valid match BEFORE testing `len(results) >= top_k`, so the
result holds one match — more than `top_k`. -/
theorem queryFilter_topk_zero_cex :
    queryFilter [some "a"] [some (mkRat 1 2)] 0 1 = [⟨"a", mkRat 1 2⟩] ∧
    ¬(((queryFilter [some "a"] [some (mkRat 1 2)] 0 1).length : ℤ) ≤ 0) := by
  decide

/-- C8 (amended): for every raw response and `top_k ≥ 1` (the source
returns one match for `top_k ≤ 0` whenever any valid entry exists,
because the count check runs only after the first append), the filtered
result has at most `top_k` matches, pairwise-distinct topics, only
matches within the distance threshold and with non-empty topic labels,
is an in-order selection of the well-formed raw entries (so invalid
entries are dropped), keeps exactly the first well-formed occurrence of
each returned topic, and is ordered nearest-first whenever the parsed
raw distances are in increasing order. -/
theorem retrieverQuery_filter_spec (metas : List (Option String))
    (dists : List (Option ℚ)) (topK : ℤ) (dt : ℚ) (h : 1 ≤ topK) :
    ((queryFilter metas dists topK dt).length : ℤ) ≤ topK ∧
    ((queryFilter metas dists topK dt).map TopicMatch.topic).Nodup ∧
    (∀ m ∈ queryFilter metas dists topK dt,
      m.distance ≤ dt ∧ m.topic ≠ "") ∧
    (queryFilter metas dists topK dt).Sublist
      (cleanMatches (metas.zip dists) dt) ∧
    (∀ m ∈ queryFilter metas dists topK dt,
      (cleanMatches (metas.zip dists) dt).find?
        (fun c => c.topic == m.topic) = some m) ∧
    (((metas.zip dists).filterMap Prod.snd).Pairwise (· ≤ ·) →
      ((queryFilter metas dists topK dt).map TopicMatch.distance).Pairwise
        (· ≤ ·)) := by
  obtain ⟨suffix, h1, h2, h3, h4, h5⟩ :=
    queryLoop_invariant dt topK (metas.zip dists) [] []
  have hq : queryFilter metas dists topK dt = suffix := by
    unfold queryFilter
    rw [h1]
    simp
  have hlen : ((queryFilter metas dists topK dt).length : ℤ) ≤ topK := by
    unfold queryFilter
    apply queryLoop_length
    simpa using lt_of_lt_of_le zero_lt_one h
  refine ⟨hlen, ?_, ?_, ?_, ?_, ?_⟩
  · rw [hq]; exact h5
  · rw [hq]
    intro m hm
    exact mem_cleanMatches _ _ _ (h2.subset hm)
  · rw [hq]; exact h2
  · rw [hq]; exact h4
  · intro hsorted
    rw [hq]
    have hcleanSorted :
        ((cleanMatches (metas.zip dists) dt).map
          TopicMatch.distance).Pairwise (· ≤ ·) :=
      List.Pairwise.sublist (cleanMatches_distances_sublist _ _) hsorted
    exact List.Pairwise.sublist (h2.map _) hcleanSorted

/-- Witness for C8 (amended) at concrete inputs: three raw entries with
a duplicated topic, `top_k = 2`. -/
theorem retrieverQuery_filter_spec_witness :
    (1 ≤ (2:ℤ)) ∧
    (((queryFilter [some "a", some "b", some "a"]
        [some 0, some (mkRat 1 2), some 1] 2 1).length : ℤ) ≤ 2 ∧
     ((queryFilter [some "a", some "b", some "a"]
        [some 0, some (mkRat 1 2), some 1] 2 1).map TopicMatch.topic).Nodup ∧
     (∀ m ∈ queryFilter [some "a", some "b", some "a"]
        [some 0, some (mkRat 1 2), some 1] 2 1,
        m.distance ≤ 1 ∧ m.topic ≠ "") ∧
     (queryFilter [some "a", some "b", some "a"]
        [some 0, some (mkRat 1 2), some 1] 2 1).Sublist
       (cleanMatches ([some "a", some "b", some "a"].zip
         [some 0, some (mkRat 1 2), some 1]) 1) ∧
     (∀ m ∈ queryFilter [some "a", some "b", some "a"]
        [some 0, some (mkRat 1 2), some 1] 2 1,
        (cleanMatches ([some "a", some "b", some "a"].zip
          [some 0, some (mkRat 1 2), some 1]) 1).find?
          (fun c => c.topic == m.topic) = some m) ∧
     ((([some "a", some "b", some "a"].zip
         [some 0, some (mkRat 1 2), some 1]).filterMap Prod.snd).Pairwise
           (· ≤ ·) →
       ((queryFilter [some "a", some "b", some "a"]
         [some 0, some (mkRat 1 2), some 1] 2 1).map
           TopicMatch.distance).Pairwise (· ≤ ·))) :=
  ⟨by decide,
   retrieverQuery_filter_spec [some "a", some "b", some "a"]
     [some 0, some (mkRat 1 2), some 1] 2 1 (by decide)⟩
